import Mathlib

/-!
Shallow embedding of the PINE transport and codec core of the woody
repository (pine.go together with the session loop of main). Byte slices
are modelled as `List Nat` of byte values. A Go runtime panic (index out
of range) is modelled by `Option`: `none` is a panic, `some (Except.error e)`
is a returned error and `some (Except.ok a)` is a successful decode. The
encoders return `Except String (List Nat)` because the Go methods return
`([]byte, error)`, with the error always nil.
-/

/-- Little-endian encoding of `v` in `w` bytes, as written by
`binary.LittleEndian.PutUint32` / `PutUint16` / `PutUint64`. -/
def leBytes (w v : Nat) : List Nat :=
  (List.range w).map (fun i => v / 256 ^ i % 256)

/-- Go `binary.LittleEndian.Uint16(bs[i:])`. Panics (`none`) unless
`i + 2 ≤ bs.length`; on byte values (< 256) the sum equals Go's bit-or
of shifted bytes. -/
def leUint16At (bs : List Nat) (i : Nat) : Option Nat :=
  match bs.drop i with
  | b0 :: b1 :: _ => some (b0 + 256 * b1)
  | _ => none

/-- Go `binary.LittleEndian.Uint32(bs[i:])`. Panics (`none`) unless
`i + 4 ≤ bs.length`; on byte values (< 256) the sum equals Go's bit-or
of shifted bytes. -/
def leUint32At (bs : List Nat) (i : Nat) : Option Nat :=
  match bs.drop i with
  | b0 :: b1 :: b2 :: b3 :: _ =>
    some (b0 + 256 * b1 + 65536 * b2 + 16777216 * b3)
  | _ => none

/-- Go `binary.LittleEndian.Uint64(bs[i:])`. Panics (`none`) unless
`i + 8 ≤ bs.length`. -/
def leUint64At (bs : List Nat) (i : Nat) : Option Nat :=
  match bs.drop i with
  | b0 :: b1 :: b2 :: b3 :: b4 :: b5 :: b6 :: b7 :: _ =>
    some (b0 + 256 * b1 + 65536 * b2 + 16777216 * b3 + 4294967296 * b4 +
      1099511627776 * b5 + 281474976710656 * b6 + 72057594037927936 * b7)
  | _ => none

/-- Go slice expression `bs[i:j]`: panics (`none`) when the bounds are out
of range for the slice. -/
def goSlice (bs : List Nat) (i j : Nat) : Option (List Nat) :=
  if i ≤ j ∧ j ≤ bs.length then some ((bs.take j).drop i) else none

/-- Go `strings.CutSuffix(s, "\u0000")`: drops one trailing NUL byte when
present, used on every decoded PINE string. -/
def cutSuffixNul (s : List Nat) : List Nat :=
  if s.getLast? = some 0 then s.dropLast else s

/-! Request encoders (pine.go). Each mirrors a `toBytes` method: it
allocates a frame of the fixed size for the operation, writes the total
length little-endian in the first four bytes, the opcode in byte 4 and
then the fields little-endian. -/

structure PineRead8Request where
  address : Nat

/-- PineRead8Request.toBytes: length 9, opcode 0, 4-byte LE address. -/
def PineRead8Request.toBytes (request : PineRead8Request) : Except String (List Nat) :=
  .ok (leBytes 4 9 ++ [0] ++ leBytes 4 request.address)

structure PineRead16Request where
  address : Nat

/-- PineRead16Request.toBytes: length 9, opcode 1, 4-byte LE address. -/
def PineRead16Request.toBytes (request : PineRead16Request) : Except String (List Nat) :=
  .ok (leBytes 4 9 ++ [1] ++ leBytes 4 request.address)

structure PineRead32Request where
  address : Nat

/-- PineRead32Request.toBytes: length 9, opcode 2, 4-byte LE address. -/
def PineRead32Request.toBytes (request : PineRead32Request) : Except String (List Nat) :=
  .ok (leBytes 4 9 ++ [2] ++ leBytes 4 request.address)

structure PineRead64Request where
  address : Nat

/-- PineRead64Request.toBytes: length 9, opcode 3, 4-byte LE address. -/
def PineRead64Request.toBytes (request : PineRead64Request) : Except String (List Nat) :=
  .ok (leBytes 4 9 ++ [3] ++ leBytes 4 request.address)

structure PineWrite8Request where
  address : Nat
  data : Nat

/-- PineWrite8Request.toBytes: length 10, opcode 4, 4-byte LE address,
1 data byte. -/
def PineWrite8Request.toBytes (request : PineWrite8Request) : Except String (List Nat) :=
  .ok (leBytes 4 10 ++ [4] ++ leBytes 4 request.address ++ [request.data % 256])

structure PineWrite16Request where
  address : Nat
  data : Nat

/-- PineWrite16Request.toBytes: length 11, opcode 5, 4-byte LE address,
2-byte LE data. -/
def PineWrite16Request.toBytes (request : PineWrite16Request) : Except String (List Nat) :=
  .ok (leBytes 4 11 ++ [5] ++ leBytes 4 request.address ++ leBytes 2 request.data)

structure PineWrite32Request where
  address : Nat
  data : Nat

/-- PineWrite32Request.toBytes: length 13, opcode 6, 4-byte LE address,
4-byte LE data. -/
def PineWrite32Request.toBytes (request : PineWrite32Request) : Except String (List Nat) :=
  .ok (leBytes 4 13 ++ [6] ++ leBytes 4 request.address ++ leBytes 4 request.data)

structure PineWrite64Request where
  address : Nat
  data : Nat

/-- PineWrite64Request.toBytes: length 17, opcode 7, 4-byte LE address,
8-byte LE data. -/
def PineWrite64Request.toBytes (request : PineWrite64Request) : Except String (List Nat) :=
  .ok (leBytes 4 17 ++ [7] ++ leBytes 4 request.address ++ leBytes 8 request.data)

structure PineVersionRequest where

/-- PineVersionRequest.toBytes: length 5, opcode 8. -/
def PineVersionRequest.toBytes (_ : PineVersionRequest) : Except String (List Nat) :=
  .ok (leBytes 4 5 ++ [8])

structure PineSaveStateRequest where
  slot : Nat

/-- PineSaveStateRequest.toBytes: length 6, opcode 9, 1 slot byte. -/
def PineSaveStateRequest.toBytes (request : PineSaveStateRequest) : Except String (List Nat) :=
  .ok (leBytes 4 6 ++ [9] ++ [request.slot % 256])

structure PineLoadStateRequest where
  slot : Nat

/-- PineLoadStateRequest.toBytes: length 6, opcode 10, 1 slot byte. -/
def PineLoadStateRequest.toBytes (request : PineLoadStateRequest) : Except String (List Nat) :=
  .ok (leBytes 4 6 ++ [10] ++ [request.slot % 256])

structure PineTitleRequest where

/-- PineTitleRequest.toBytes: length 5, opcode 11. -/
def PineTitleRequest.toBytes (_ : PineTitleRequest) : Except String (List Nat) :=
  .ok (leBytes 4 5 ++ [11])

structure PineIDRequest where

/-- PineIDRequest.toBytes: length 5, opcode 12. -/
def PineIDRequest.toBytes (_ : PineIDRequest) : Except String (List Nat) :=
  .ok (leBytes 4 5 ++ [12])

structure PineUUIDRequest where

/-- PineUUIDRequest.toBytes: length 5, opcode 13. -/
def PineUUIDRequest.toBytes (_ : PineUUIDRequest) : Except String (List Nat) :=
  .ok (leBytes 4 5 ++ [13])

structure PineGameVersionRequest where

/-- PineGameVersionRequest.toBytes: length 5, opcode 14. -/
def PineGameVersionRequest.toBytes (_ : PineGameVersionRequest) : Except String (List Nat) :=
  .ok (leBytes 4 5 ++ [14])

structure PineStatusRequest where

/-- PineStatusRequest.toBytes: length 5, opcode 15. -/
def PineStatusRequest.toBytes (_ : PineStatusRequest) : Except String (List Nat) :=
  .ok (leBytes 4 5 ++ [15])

/-- The sixteen request variants of the codec, so that one statement can
quantify over every operation kind and every field value. -/
inductive PineRequest where
  | read8 (address : Nat)
  | read16 (address : Nat)
  | read32 (address : Nat)
  | read64 (address : Nat)
  | write8 (address data : Nat)
  | write16 (address data : Nat)
  | write32 (address data : Nat)
  | write64 (address data : Nat)
  | version
  | saveState (slot : Nat)
  | loadState (slot : Nat)
  | title
  | id
  | uuid
  | gameVersion
  | status

/-- Dispatch to the per-variant toBytes methods of pine.go. -/
def PineRequest.toBytes : PineRequest → Except String (List Nat)
  | .read8 a => PineRead8Request.toBytes ⟨a⟩
  | .read16 a => PineRead16Request.toBytes ⟨a⟩
  | .read32 a => PineRead32Request.toBytes ⟨a⟩
  | .read64 a => PineRead64Request.toBytes ⟨a⟩
  | .write8 a d => PineWrite8Request.toBytes ⟨a, d⟩
  | .write16 a d => PineWrite16Request.toBytes ⟨a, d⟩
  | .write32 a d => PineWrite32Request.toBytes ⟨a, d⟩
  | .write64 a d => PineWrite64Request.toBytes ⟨a, d⟩
  | .version => PineVersionRequest.toBytes ⟨⟩
  | .saveState s => PineSaveStateRequest.toBytes ⟨s⟩
  | .loadState s => PineLoadStateRequest.toBytes ⟨s⟩
  | .title => PineTitleRequest.toBytes ⟨⟩
  | .id => PineIDRequest.toBytes ⟨⟩
  | .uuid => PineUUIDRequest.toBytes ⟨⟩
  | .gameVersion => PineGameVersionRequest.toBytes ⟨⟩
  | .status => PineStatusRequest.toBytes ⟨⟩

/-! Answer decoders (pine.go). Each `fromBytes` first reads the declared
length `binary.LittleEndian.Uint32(bytes[0:])` (a panic when fewer than 4
bytes are present), validates the declared length against the accepted
set for the operation, and then reads the fields by direct indexing with
no check against the actual slice length. -/

structure PineRead8Answer where
  resultCode : Nat
  memoryValue : Nat
  deriving DecidableEq

/-- PineRead8Answer.fromBytes: declared length must be 5 or 6, result code
at byte 4, value at byte 5 (read unconditionally). -/
def PineRead8Answer.fromBytes (bytes : List Nat) : Option (Except String PineRead8Answer) :=
  match leUint32At bytes 0 with
  | none => none
  | some length =>
    if length ≠ 5 ∧ length ≠ 6 then
      some (.error "length of bytes for PineStatusAnswer != 5 or 6")
    else
      match bytes[4]?, bytes[5]? with
      | some rc, some mv => some (.ok ⟨rc, mv⟩)
      | _, _ => none

structure PineRead16Answer where
  resultCode : Nat
  memoryValue : Nat
  deriving DecidableEq

/-- PineRead16Answer.fromBytes: declared length must be 5 or 7, result
code at byte 4, 2-byte LE value at byte 5 (read unconditionally). -/
def PineRead16Answer.fromBytes (bytes : List Nat) : Option (Except String PineRead16Answer) :=
  match leUint32At bytes 0 with
  | none => none
  | some length =>
    if length ≠ 5 ∧ length ≠ 7 then
      some (.error "length of bytes for PineStatusAnswer != 5 or 7")
    else
      match bytes[4]?, leUint16At bytes 5 with
      | some rc, some mv => some (.ok ⟨rc, mv⟩)
      | _, _ => none

structure PineRead32Answer where
  resultCode : Nat
  memoryValue : Nat
  deriving DecidableEq

/-- PineRead32Answer.fromBytes: declared length must be 5 or 9, result
code at byte 4, 4-byte LE value at byte 5 (read unconditionally). -/
def PineRead32Answer.fromBytes (bytes : List Nat) : Option (Except String PineRead32Answer) :=
  match leUint32At bytes 0 with
  | none => none
  | some length =>
    if length ≠ 5 ∧ length ≠ 9 then
      some (.error "length of bytes for PineStatusAnswer != 5 or 9")
    else
      match bytes[4]?, leUint32At bytes 5 with
      | some rc, some mv => some (.ok ⟨rc, mv⟩)
      | _, _ => none

structure PineRead64Answer where
  resultCode : Nat
  memoryValue : Nat
  deriving DecidableEq

/-- PineRead64Answer.fromBytes: declared length must be 5 or 13, result
code at byte 4, 8-byte LE value at byte 5 (read unconditionally). -/
def PineRead64Answer.fromBytes (bytes : List Nat) : Option (Except String PineRead64Answer) :=
  match leUint32At bytes 0 with
  | none => none
  | some length =>
    if length ≠ 5 ∧ length ≠ 13 then
      some (.error "length of bytes for PineStatusAnswer != 5 or 13")
    else
      match bytes[4]?, leUint64At bytes 5 with
      | some rc, some mv => some (.ok ⟨rc, mv⟩)
      | _, _ => none

structure PineWrite8Answer where
  resultCode : Nat
  deriving DecidableEq

/-- PineWrite8Answer.fromBytes: declared length must be exactly 5, result
code at byte 4. -/
def PineWrite8Answer.fromBytes (bytes : List Nat) : Option (Except String PineWrite8Answer) :=
  match leUint32At bytes 0 with
  | none => none
  | some length =>
    if length ≠ 5 then
      some (.error "length of bytes for PineStatusAnswer != 5")
    else
      match bytes[4]? with
      | some rc => some (.ok ⟨rc⟩)
      | none => none

structure PineWrite16Answer where
  resultCode : Nat
  deriving DecidableEq

/-- PineWrite16Answer.fromBytes: declared length must be exactly 5, result
code at byte 4. -/
def PineWrite16Answer.fromBytes (bytes : List Nat) : Option (Except String PineWrite16Answer) :=
  match leUint32At bytes 0 with
  | none => none
  | some length =>
    if length ≠ 5 then
      some (.error "length of bytes for PineStatusAnswer != 5")
    else
      match bytes[4]? with
      | some rc => some (.ok ⟨rc⟩)
      | none => none

structure PineWrite32Answer where
  resultCode : Nat
  deriving DecidableEq

/-- PineWrite32Answer.fromBytes: declared length must be exactly 5, result
code at byte 4. -/
def PineWrite32Answer.fromBytes (bytes : List Nat) : Option (Except String PineWrite32Answer) :=
  match leUint32At bytes 0 with
  | none => none
  | some length =>
    if length ≠ 5 then
      some (.error "length of bytes for PineStatusAnswer != 5")
    else
      match bytes[4]? with
      | some rc => some (.ok ⟨rc⟩)
      | none => none

structure PineWrite64Answer where
  resultCode : Nat
  deriving DecidableEq

/-- PineWrite64Answer.fromBytes: declared length must be exactly 5, result
code at byte 4. -/
def PineWrite64Answer.fromBytes (bytes : List Nat) : Option (Except String PineWrite64Answer) :=
  match leUint32At bytes 0 with
  | none => none
  | some length =>
    if length ≠ 5 then
      some (.error "length of bytes for PineStatusAnswer != 5")
    else
      match bytes[4]? with
      | some rc => some (.ok ⟨rc⟩)
      | none => none

structure PineSaveStateAnswer where
  resultCode : Nat
  deriving DecidableEq

/-- PineSaveStateAnswer.fromBytes: declared length must be exactly 5,
result code at byte 4. -/
def PineSaveStateAnswer.fromBytes (bytes : List Nat) : Option (Except String PineSaveStateAnswer) :=
  match leUint32At bytes 0 with
  | none => none
  | some length =>
    if length ≠ 5 then
      some (.error "length of bytes for PineSaveStateAnswer != 5")
    else
      match bytes[4]? with
      | some rc => some (.ok ⟨rc⟩)
      | none => none

structure PineLoadStateAnswer where
  resultCode : Nat
  deriving DecidableEq

/-- PineLoadStateAnswer.fromBytes: declared length must be exactly 5,
result code at byte 4. -/
def PineLoadStateAnswer.fromBytes (bytes : List Nat) : Option (Except String PineLoadStateAnswer) :=
  match leUint32At bytes 0 with
  | none => none
  | some length =>
    if length ≠ 5 then
      some (.error "length of bytes for PineLoadStateAnswer != 5")
    else
      match bytes[4]? with
      | some rc => some (.ok ⟨rc⟩)
      | none => none

structure PineVersionAnswer where
  resultCode : Nat
  version : List Nat
  deriving DecidableEq

/-- PineVersionAnswer.fromBytes: declared length must be at least 10;
result code at byte 4, 4-byte LE string length at byte 5; when the string
length is positive the string is `bytes[9 : 9+stringLength]` with one
trailing NUL stripped, otherwise the empty string. -/
def PineVersionAnswer.fromBytes (bytes : List Nat) : Option (Except String PineVersionAnswer) :=
  match leUint32At bytes 0 with
  | none => none
  | some length =>
    if length < 10 then
      some (.error "bytes for PineVersionAnswer < 10")
    else
      match bytes[4]?, leUint32At bytes 5 with
      | some rc, some stringLength =>
        if stringLength > 0 then
          match goSlice bytes 9 (9 + stringLength) with
          | none => none
          | some s => some (.ok ⟨rc, cutSuffixNul s⟩)
        else some (.ok ⟨rc, []⟩)
      | _, _ => none

structure PineTitleAnswer where
  resultCode : Nat
  title : List Nat
  deriving DecidableEq

/-- PineTitleAnswer.fromBytes: same body as PineVersionAnswer.fromBytes in
the source, error message included, decoding into the title field. -/
def PineTitleAnswer.fromBytes (bytes : List Nat) : Option (Except String PineTitleAnswer) :=
  match leUint32At bytes 0 with
  | none => none
  | some length =>
    if length < 10 then
      some (.error "bytes for PineVersionAnswer < 10")
    else
      match bytes[4]?, leUint32At bytes 5 with
      | some rc, some stringLength =>
        if stringLength > 0 then
          match goSlice bytes 9 (9 + stringLength) with
          | none => none
          | some s => some (.ok ⟨rc, cutSuffixNul s⟩)
        else some (.ok ⟨rc, []⟩)
      | _, _ => none

structure PineIDAnswer where
  resultCode : Nat
  id : List Nat
  deriving DecidableEq

/-- PineIDAnswer.fromBytes: same body as PineVersionAnswer.fromBytes in
the source, error message included, decoding into the id field. -/
def PineIDAnswer.fromBytes (bytes : List Nat) : Option (Except String PineIDAnswer) :=
  match leUint32At bytes 0 with
  | none => none
  | some length =>
    if length < 10 then
      some (.error "bytes for PineVersionAnswer < 10")
    else
      match bytes[4]?, leUint32At bytes 5 with
      | some rc, some stringLength =>
        if stringLength > 0 then
          match goSlice bytes 9 (9 + stringLength) with
          | none => none
          | some s => some (.ok ⟨rc, cutSuffixNul s⟩)
        else some (.ok ⟨rc, []⟩)
      | _, _ => none

structure PineUUIDAnswer where
  resultCode : Nat
  uuid : List Nat
  deriving DecidableEq

/-- PineUUIDAnswer.fromBytes: same body as PineVersionAnswer.fromBytes in
the source, error message included, decoding into the uuid field. -/
def PineUUIDAnswer.fromBytes (bytes : List Nat) : Option (Except String PineUUIDAnswer) :=
  match leUint32At bytes 0 with
  | none => none
  | some length =>
    if length < 10 then
      some (.error "bytes for PineVersionAnswer < 10")
    else
      match bytes[4]?, leUint32At bytes 5 with
      | some rc, some stringLength =>
        if stringLength > 0 then
          match goSlice bytes 9 (9 + stringLength) with
          | none => none
          | some s => some (.ok ⟨rc, cutSuffixNul s⟩)
        else some (.ok ⟨rc, []⟩)
      | _, _ => none

structure PineGameVersionAnswer where
  resultCode : Nat
  gameVersion : List Nat
  deriving DecidableEq

/-- PineGameVersionAnswer.fromBytes: same body as
PineVersionAnswer.fromBytes in the source, error message included,
decoding into the gameVersion field. -/
def PineGameVersionAnswer.fromBytes (bytes : List Nat) :
    Option (Except String PineGameVersionAnswer) :=
  match leUint32At bytes 0 with
  | none => none
  | some length =>
    if length < 10 then
      some (.error "bytes for PineVersionAnswer < 10")
    else
      match bytes[4]?, leUint32At bytes 5 with
      | some rc, some stringLength =>
        if stringLength > 0 then
          match goSlice bytes 9 (9 + stringLength) with
          | none => none
          | some s => some (.ok ⟨rc, cutSuffixNul s⟩)
        else some (.ok ⟨rc, []⟩)
      | _, _ => none

structure PineStatusAnswer where
  resultCode : Nat
  status : Nat
  deriving DecidableEq

/-- PineStatusAnswer.fromBytes: declared length must be 5 or 9, result
code at byte 4; the 4-byte LE status is read only when the declared
length is 9, the status field otherwise keeping its zero value. -/
def PineStatusAnswer.fromBytes (bytes : List Nat) : Option (Except String PineStatusAnswer) :=
  match leUint32At bytes 0 with
  | none => none
  | some length =>
    if length ≠ 5 ∧ length ≠ 9 then
      some (.error "length of bytes for PineStatusAnswer != 5 or 9")
    else
      match bytes[4]? with
      | none => none
      | some rc =>
        if length = 9 then
          match leUint32At bytes 5 with
          | none => none
          | some s => some (.ok ⟨rc, s⟩)
        else some (.ok ⟨rc, 0⟩)

/-! Transport resolver and connection (pine.go). `runtime.GOOS` and the
environment variables read by `os.Getenv` are passed explicitly; `os.Getenv`
yields the empty string for an unset variable. Whether `net.Dial` succeeds
for a given (network, address) pair is a `dial` predicate parameter. -/

/-- The defaultSlotForTargetMap of pine.go as an association list:
the two known targets with their registered default slots. -/
def defaultSlotForTargetMap : List (String × Nat) :=
  [("pcsx2", 28011), ("rpcs3", 28012)]

structure PineConnection where
  network : String
  address : String
  deriving DecidableEq

/-- The three errors returned by NewPineConnection in pine.go:
`emptyTarget` stands for the message "empty string provided for target
name when creating PINE connection", `unknownTarget` for the message
built as "unknown target ... Supported values are ..." (in the source the
value list is the result of formatting `maps.Keys(defaultSlotForTargetMap)`
with the v verb), and `unknownOS` for "unknown operating system when
creating PineConnection". -/
inductive ResolveError where
  | emptyTarget
  | unknownTarget
  | unknownOS
  deriving DecidableEq

/-- The findSocketPath function of pine.go: the directory is
XDG_RUNTIME_DIR on linux when set and non-empty, TMPDIR on darwin when
set and non-empty, and "/tmp" otherwise; the file name always carries the
slot suffix. -/
def findSocketPath (goos xdgRuntimeDir tmpdir target : String) (slot : Nat) : String :=
  let dir :=
    if goos = "linux" ∧ xdgRuntimeDir ≠ "" then xdgRuntimeDir
    else if goos = "darwin" ∧ tmpdir ≠ "" then tmpdir
    else "/tmp"
  dir ++ "/" ++ (target ++ ".sock." ++ Nat.repr slot)

/-- The NewPineConnection function of pine.go: empty target fails; a zero
slot is replaced by the target's registered default slot, failing for an
unrecognized target; the transport is TCP on windows and a unix socket
path on darwin and linux. -/
def NewPineConnection (goos xdgRuntimeDir tmpdir target : String) (slot : Nat) :
    Except ResolveError PineConnection :=
  if target = "" then .error .emptyTarget
  else
    match (if slot = 0 then defaultSlotForTargetMap.lookup target else some slot) with
    | none => .error .unknownTarget
    | some s =>
      match goos with
      | "windows" => .ok ⟨"tcp", ":" ++ Nat.repr s⟩
      | "darwin" => .ok ⟨"unix", findSocketPath goos xdgRuntimeDir tmpdir target s⟩
      | "linux" => .ok ⟨"unix", findSocketPath goos xdgRuntimeDir tmpdir target s⟩
      | _ => .error .unknownOS

/-- The truncation `address[:strings.LastIndex(address, ".")]` used by
PineConnection.connect to form the slot-less secondary candidate. It is
written for addresses containing a '.' (every unix address built by
findSocketPath does); the source would panic otherwise. -/
def stripAfterLastDot (s : String) : String :=
  ⟨((s.data.reverse.dropWhile (fun c => c ≠ '.')).drop 1).reverse⟩

/-- The PineConnection.connect method of pine.go: dial the primary
address; on failure, for unix sockets only, retry exactly once against
the slot-less candidate; any remaining failure returns the
"could not connect" error naming the primary address. -/
def PineConnection.connect (dial : String → String → Bool) (c : PineConnection) :
    Except String String :=
  if dial c.network c.address then .ok c.address
  else if c.network = "unix" ∧ dial c.network (stripAfterLastDot c.address) then
    .ok (stripAfterLastDot c.address)
  else .error ("could not connect to PINE at \"" ++ c.address ++ "\"")

/-- The PineConnection.TestConnection method of pine.go: connect and
immediately close, succeeding exactly when connect does. -/
def PineConnection.TestConnection (dial : String → String → Bool) (c : PineConnection) : Bool :=
  match c.connect dial with
  | .ok _ => true
  | .error _ => false

/-! Session manager loop (the connection loop of main). The loop ranges
over the Go map defaultSlotForTargetMap; Go leaves the iteration order of
a map range unspecified, so the order of one pass is a parameter: a list
of (target, default slot) pairs. -/

/-- One probe of the loop body of main: build the connection for the
target on its default slot and run the trivial open-and-close round
trip. -/
def probeTarget (dial : String → String → Bool) (goos xdgRuntimeDir tmpdir : String)
    (target : String) (slot : Nat) : Bool :=
  match NewPineConnection goos xdgRuntimeDir tmpdir target slot with
  | .error _ => false
  | .ok c => c.TestConnection dial

/-- One full pass of the probe loop of main over the given iteration
order: the first target whose probe succeeds is kept (the loop breaks),
and `none` is the pass leaving the process disconnected. -/
def probePass (dial : String → String → Bool) (goos xdgRuntimeDir tmpdir : String) :
    List (String × Nat) → Option String
  | [] => none
  | (target, slot) :: rest =>
    if probeTarget dial goos xdgRuntimeDir tmpdir target slot then some target
    else probePass dial goos xdgRuntimeDir tmpdir rest

/-- Observable events of one pass of the probe loop of main: the probes
attempted in iteration order, then, when every probe failed, the 5-second
sleep of `time.Sleep(5 * time.Second)` before the next pass. -/
inductive LoopEvent where
  | probe (target : String)
  | sleep (seconds : Nat)
  deriving DecidableEq

/-- Event trace of one pass of the probe loop of main over the given
iteration order. -/
def roundEvents (dial : String → String → Bool) (goos xdgRuntimeDir tmpdir : String) :
    List (String × Nat) → List LoopEvent
  | [] => [.sleep 5]
  | (target, slot) :: rest =>
    .probe target ::
      (if probeTarget dial goos xdgRuntimeDir tmpdir target slot then []
       else roundEvents dial goos xdgRuntimeDir tmpdir rest)

/-- Connection state of the session manager of main. -/
inductive SessionState where
  | disconnected
  | connected (target : String)
  deriving DecidableEq

/-- State of the session manager after `n` passes of the probe loop of
main, where `orders n` is the (unspecified) map iteration order of pass
`n`; the process starts disconnected and a pass is attempted only while
no connection is held. -/
def sessionStateAfterRounds (dial : String → String → Bool)
    (goos xdgRuntimeDir tmpdir : String) (orders : Nat → List (String × Nat)) :
    Nat → SessionState
  | 0 => .disconnected
  | n + 1 =>
    match sessionStateAfterRounds dial goos xdgRuntimeDir tmpdir orders n with
    | .connected target => .connected target
    | .disconnected =>
      match probePass dial goos xdgRuntimeDir tmpdir (orders n) with
      | some target => .connected target
      | none => .disconnected

/-! Helper lemmas shared by the claim theorems. -/

theorem leBytes_length (w v : Nat) : (leBytes w v).length = w := by
  simp [leBytes]

theorem leBytes_four (n : Nat) :
    leBytes 4 n = [n % 256, n / 256 % 256, n / 65536 % 256, n / 16777216 % 256] := by
  have h4 : List.range 4 = [0, 1, 2, 3] := rfl
  simp [leBytes, h4]

theorem leUint32At_leBytes_append (n : Nat) (hn : n < 4294967296) (rest : List Nat) :
    leUint32At (leBytes 4 n ++ rest) 0 = some n := by
  rw [leBytes_four]
  show some _ = some n
  congr 1
  omega

theorem leUint32At_eq_none_of_short (bs : List Nat) (i : Nat) (h : bs.length < i + 4) :
    leUint32At bs i = none := by
  have hd : (bs.drop i).length < 4 := by
    simp only [List.length_drop]
    omega
  unfold leUint32At
  cases h0 : bs.drop i with
  | nil => rfl
  | cons b0 t0 =>
    cases t0 with
    | nil => rfl
    | cons b1 t1 =>
      cases t1 with
      | nil => rfl
      | cons b2 t2 =>
        cases t2 with
        | nil => rfl
        | cons b3 t3 =>
          rw [h0] at hd
          simp at hd
          omega

/-- C9: encoding a read-32 request at address 0x35459C produces exactly
the nine bytes 09 00 00 00 02 9C 45 35 00: little-endian length 9, opcode
2, little-endian address. -/
theorem read32_request_encodes_scenario_bytes :
    PineRead32Request.toBytes ⟨0x35459C⟩ =
      .ok [0x09, 0x00, 0x00, 0x00, 0x02, 0x9C, 0x45, 0x35, 0x00] := by
  rfl

/-- C3: for every one of the sixteen request variants and every field
value, toBytes returns with a nil error, and the first four bytes of the
output, read as a little-endian 32-bit integer, equal the total byte
length of the output. -/
theorem request_encode_length_invariant (r : PineRequest) :
    ∃ bs, r.toBytes = .ok bs ∧ leUint32At bs 0 = some bs.length := by
  cases r <;>
    refine ⟨_, rfl, ?_⟩ <;>
    · try simp only [List.append_assoc]
      rw [leUint32At_leBytes_append _ (by norm_num)]
      simp [leBytes_length]

/-- C1 counterexample: a 3-byte input panics inside the length read, and
a genuine 5-byte read-8 failure answer (declared length 5, in the
accepted set) panics reading the value byte at index 5; neither returns
an error. -/
theorem read8_decode_short_input_panics_cex :
    PineRead8Answer.fromBytes [6, 0, 0] = none ∧
    PineRead8Answer.fromBytes [5, 0, 0, 0, 0] = none := by
  exact ⟨rfl, rfl⟩

/-- C1 (amended): read-8 and read-32 answer decoding checks only the
declared length, never the actual slice length: any input of fewer than
4 bytes panics in the length read, a 5-byte input with declared length 5
panics in the unconditional value read, and an input whose 4-byte prefix
is readable but whose declared length is outside the accepted set returns
an error. -/
theorem read_answer_decode_short_input_behavior :
    (∀ bs : List Nat, bs.length < 4 → PineRead8Answer.fromBytes bs = none) ∧
    (∀ bs : List Nat, leUint32At bs 0 = some 5 → bs.length = 5 →
      PineRead8Answer.fromBytes bs = none) ∧
    (∀ bs L, leUint32At bs 0 = some L → L ≠ 5 → L ≠ 6 →
      PineRead8Answer.fromBytes bs =
        some (.error "length of bytes for PineStatusAnswer != 5 or 6")) ∧
    (∀ bs : List Nat, bs.length < 4 → PineRead32Answer.fromBytes bs = none) ∧
    (∀ bs : List Nat, leUint32At bs 0 = some 5 → bs.length = 5 →
      PineRead32Answer.fromBytes bs = none) ∧
    (∀ bs L, leUint32At bs 0 = some L → L ≠ 5 → L ≠ 9 →
      PineRead32Answer.fromBytes bs =
        some (.error "length of bytes for PineStatusAnswer != 5 or 9")) := by
  refine ⟨?_, ?_, ?_, ?_, ?_, ?_⟩
  · intro bs h
    simp [PineRead8Answer.fromBytes, leUint32At_eq_none_of_short bs 0 (by omega)]
  · intro bs h5 hlen
    have h5n : bs[5]? = none := List.getElem?_eq_none (by omega)
    rcases h4 : bs[4]? with _ | rc <;>
      simp [PineRead8Answer.fromBytes, h5, h4, h5n]
  · intro bs L hL h5 h6
    simp [PineRead8Answer.fromBytes, hL, h5, h6]
  · intro bs h
    simp [PineRead32Answer.fromBytes, leUint32At_eq_none_of_short bs 0 (by omega)]
  · intro bs h5 hlen
    have hvn : leUint32At bs 5 = none := leUint32At_eq_none_of_short bs 5 (by omega)
    rcases h4 : bs[4]? with _ | rc <;>
      simp [PineRead32Answer.fromBytes, h5, h4, hvn]
  · intro bs L hL h5 h9
    simp [PineRead32Answer.fromBytes, hL, h5, h9]

/-- C1 witness: the panic and error cases of the theorem at concrete
inputs. -/
theorem read_answer_decode_short_input_behavior_witness :
    PineRead8Answer.fromBytes [0] = none ∧
    PineRead32Answer.fromBytes [7, 0, 0, 0, 0, 0, 0] =
      some (.error "length of bytes for PineStatusAnswer != 5 or 9") :=
  ⟨read_answer_decode_short_input_behavior.1 [0] (by decide),
   read_answer_decode_short_input_behavior.2.2.2.2.2 [7, 0, 0, 0, 0, 0, 0] 7 rfl
     (by decide) (by decide)⟩

/-- C2 counterexample: a genuine 5-byte read-8 failure answer has its
declared length 5 in the operation's accepted set, yet decoding does not
succeed: it panics reading the value byte. -/
theorem read8_accepted_length_panics_cex :
    PineRead8Answer.fromBytes [5, 0, 0, 0, 255] = none := rfl

/-- C2 (amended): decoding returns an error exactly when the declared
4-byte little-endian length is outside the operation's accepted set
(exactly 5 for write-8, 5 or 9 for status, the 32-bit status value being
decoded only when the length is 9); when the declared length is in the
accepted set, decoding either succeeds or panics on a slice shorter than
the fields it reads unconditionally. -/
theorem answer_decode_length_gate :
    (∀ bs L, leUint32At bs 0 = some L → L ≠ 5 →
      PineWrite8Answer.fromBytes bs =
        some (.error "length of bytes for PineStatusAnswer != 5")) ∧
    (∀ bs rc, leUint32At bs 0 = some 5 → bs[4]? = some rc →
      PineWrite8Answer.fromBytes bs = some (.ok ⟨rc⟩)) ∧
    (∀ bs L, leUint32At bs 0 = some L → L ≠ 5 → L ≠ 9 →
      PineStatusAnswer.fromBytes bs =
        some (.error "length of bytes for PineStatusAnswer != 5 or 9")) ∧
    (∀ bs rc, leUint32At bs 0 = some 5 → bs[4]? = some rc →
      PineStatusAnswer.fromBytes bs = some (.ok ⟨rc, 0⟩)) ∧
    (∀ bs rc v, leUint32At bs 0 = some 9 → bs[4]? = some rc →
      leUint32At bs 5 = some v →
      PineStatusAnswer.fromBytes bs = some (.ok ⟨rc, v⟩)) := by
  refine ⟨?_, ?_, ?_, ?_, ?_⟩
  · intro bs L hL h5
    simp [PineWrite8Answer.fromBytes, hL, h5]
  · intro bs rc h5 h4
    simp [PineWrite8Answer.fromBytes, h5, h4]
  · intro bs L hL h5 h9
    simp [PineStatusAnswer.fromBytes, hL, h5, h9]
  · intro bs rc h5 h4
    simp [PineStatusAnswer.fromBytes, h5, h4]
  · intro bs rc v h9 h4 hv
    simp [PineStatusAnswer.fromBytes, h9, h4, hv]

/-- C2 witness: the length gate at concrete frames: a 5-byte write-8
answer succeeds, a 9-byte status answer carries its status value, and a
7-byte declared length is rejected. -/
theorem answer_decode_length_gate_witness :
    PineWrite8Answer.fromBytes [5, 0, 0, 0, 0] = some (.ok ⟨0⟩) ∧
    PineStatusAnswer.fromBytes [9, 0, 0, 0, 0, 2, 0, 0, 0] = some (.ok ⟨0, 2⟩) ∧
    PineWrite8Answer.fromBytes [7, 0, 0, 0, 0, 0, 0] =
      some (.error "length of bytes for PineStatusAnswer != 5") :=
  ⟨answer_decode_length_gate.2.1 [5, 0, 0, 0, 0] 0 rfl rfl,
   answer_decode_length_gate.2.2.2.2 [9, 0, 0, 0, 0, 2, 0, 0, 0] 0 2 rfl rfl rfl,
   answer_decode_length_gate.1 [7, 0, 0, 0, 0, 0, 0] 7 rfl (by decide)⟩

/-- C7 counterexample: two read-8 answer frames with declared length 7
and different payload bytes yield the same returned error value, so the
returned error does not include the offending raw bytes (those appear
only in the log output, not in the error). -/
theorem decode_error_independent_of_raw_bytes_cex :
    PineRead8Answer.fromBytes [7, 0, 0, 0, 1, 2, 3] =
      some (.error "length of bytes for PineStatusAnswer != 5 or 6") ∧
    PineRead8Answer.fromBytes [7, 0, 0, 0, 250, 251, 252] =
      some (.error "length of bytes for PineStatusAnswer != 5 or 6") := by
  exact ⟨rfl, rfl⟩

/-- C7 (amended): for a declared length outside the accepted set, the
returned error value is a fixed string naming only the expected length
set (and, for the read answers, misnaming the type as PineStatusAnswer);
it is the same value for every input with that declared length, the raw
bytes being only logged. -/
theorem decode_error_is_fixed_string :
    (∀ bs L, leUint32At bs 0 = some L → L ≠ 5 → L ≠ 6 →
      PineRead8Answer.fromBytes bs =
        some (.error "length of bytes for PineStatusAnswer != 5 or 6")) ∧
    (∀ bs L, leUint32At bs 0 = some L → L ≠ 5 →
      PineSaveStateAnswer.fromBytes bs =
        some (.error "length of bytes for PineSaveStateAnswer != 5")) := by
  constructor
  · intro bs L hL h5 h6
    simp [PineRead8Answer.fromBytes, hL, h5, h6]
  · intro bs L hL h5
    simp [PineSaveStateAnswer.fromBytes, hL, h5]

/-- C7 witness: the fixed error strings at concrete inputs. -/
theorem decode_error_is_fixed_string_witness :
    PineRead8Answer.fromBytes [8, 0, 0, 0] =
      some (.error "length of bytes for PineStatusAnswer != 5 or 6") ∧
    PineSaveStateAnswer.fromBytes [8, 0, 0, 0] =
      some (.error "length of bytes for PineSaveStateAnswer != 5") :=
  ⟨decode_error_is_fixed_string.1 [8, 0, 0, 0] 8 rfl (by decide) (by decide),
   decode_error_is_fixed_string.2 [8, 0, 0, 0] 8 rfl (by decide)⟩

/-- C4: every string-returning answer decoder (version, title, id, uuid,
game version) requires a declared total length of at least 10, reads the
little-endian 32-bit string length at offset 5, takes the string bytes at
offsets 9 through 9 + stringLength with one trailing NUL terminator, if
present, stripped, and yields the empty string for a zero string length;
a declared length under 10 returns an error. -/
theorem string_answer_decode_layout :
    (∀ bs L n rc, leUint32At bs 0 = some L → 10 ≤ L → bs[4]? = some rc →
      leUint32At bs 5 = some n → 9 + n ≤ bs.length →
      PineVersionAnswer.fromBytes bs =
        some (.ok ⟨rc, cutSuffixNul ((bs.take (9 + n)).drop 9)⟩)) ∧
    (∀ bs L, leUint32At bs 0 = some L → L < 10 →
      PineVersionAnswer.fromBytes bs =
        some (.error "bytes for PineVersionAnswer < 10")) ∧
    (∀ bs L rc, leUint32At bs 0 = some L → 10 ≤ L → bs[4]? = some rc →
      leUint32At bs 5 = some 0 →
      PineVersionAnswer.fromBytes bs = some (.ok ⟨rc, []⟩)) ∧
    (∀ bs L n rc, leUint32At bs 0 = some L → 10 ≤ L → bs[4]? = some rc →
      leUint32At bs 5 = some n → 9 + n ≤ bs.length →
      PineTitleAnswer.fromBytes bs =
        some (.ok ⟨rc, cutSuffixNul ((bs.take (9 + n)).drop 9)⟩)) ∧
    (∀ bs L n rc, leUint32At bs 0 = some L → 10 ≤ L → bs[4]? = some rc →
      leUint32At bs 5 = some n → 9 + n ≤ bs.length →
      PineIDAnswer.fromBytes bs =
        some (.ok ⟨rc, cutSuffixNul ((bs.take (9 + n)).drop 9)⟩)) ∧
    (∀ bs L n rc, leUint32At bs 0 = some L → 10 ≤ L → bs[4]? = some rc →
      leUint32At bs 5 = some n → 9 + n ≤ bs.length →
      PineUUIDAnswer.fromBytes bs =
        some (.ok ⟨rc, cutSuffixNul ((bs.take (9 + n)).drop 9)⟩)) ∧
    (∀ bs L n rc, leUint32At bs 0 = some L → 10 ≤ L → bs[4]? = some rc →
      leUint32At bs 5 = some n → 9 + n ≤ bs.length →
      PineGameVersionAnswer.fromBytes bs =
        some (.ok ⟨rc, cutSuffixNul ((bs.take (9 + n)).drop 9)⟩)) := by
  have hsl : ∀ (bs : List Nat) (n : Nat), 0 < n → 9 + n ≤ bs.length →
      goSlice bs 9 (9 + n) = some ((bs.take (9 + n)).drop 9) := by
    intro bs n hpos hlen
    simp [goSlice, hlen]
  have hz : ∀ bs : List Nat, cutSuffixNul ((bs.take 9).drop 9) = [] := by
    intro bs
    have h9 : (bs.take 9).length ≤ 9 := by simp
    rw [List.drop_eq_nil_of_le h9]
    rfl
  refine ⟨?_, ?_, ?_, ?_, ?_, ?_, ?_⟩
  · intro bs L n rc hL h10 hrc hn hlen
    rcases Nat.eq_zero_or_pos n with rfl | hpos
    · simp [PineVersionAnswer.fromBytes, hL, Nat.not_lt.mpr h10, hrc, hn, hz bs]
    · simp [PineVersionAnswer.fromBytes, hL, Nat.not_lt.mpr h10, hrc, hn,
        Nat.pos_iff_ne_zero.mp hpos, hsl bs n hpos hlen]
  · intro bs L hL hlt
    simp [PineVersionAnswer.fromBytes, hL, hlt]
  · intro bs L rc hL h10 hrc hn
    simp [PineVersionAnswer.fromBytes, hL, Nat.not_lt.mpr h10, hrc, hn]
  · intro bs L n rc hL h10 hrc hn hlen
    rcases Nat.eq_zero_or_pos n with rfl | hpos
    · simp [PineTitleAnswer.fromBytes, hL, Nat.not_lt.mpr h10, hrc, hn, hz bs]
    · simp [PineTitleAnswer.fromBytes, hL, Nat.not_lt.mpr h10, hrc, hn,
        Nat.pos_iff_ne_zero.mp hpos, hsl bs n hpos hlen]
  · intro bs L n rc hL h10 hrc hn hlen
    rcases Nat.eq_zero_or_pos n with rfl | hpos
    · simp [PineIDAnswer.fromBytes, hL, Nat.not_lt.mpr h10, hrc, hn, hz bs]
    · simp [PineIDAnswer.fromBytes, hL, Nat.not_lt.mpr h10, hrc, hn,
        Nat.pos_iff_ne_zero.mp hpos, hsl bs n hpos hlen]
  · intro bs L n rc hL h10 hrc hn hlen
    rcases Nat.eq_zero_or_pos n with rfl | hpos
    · simp [PineUUIDAnswer.fromBytes, hL, Nat.not_lt.mpr h10, hrc, hn, hz bs]
    · simp [PineUUIDAnswer.fromBytes, hL, Nat.not_lt.mpr h10, hrc, hn,
        Nat.pos_iff_ne_zero.mp hpos, hsl bs n hpos hlen]
  · intro bs L n rc hL h10 hrc hn hlen
    rcases Nat.eq_zero_or_pos n with rfl | hpos
    · simp [PineGameVersionAnswer.fromBytes, hL, Nat.not_lt.mpr h10, hrc, hn, hz bs]
    · simp [PineGameVersionAnswer.fromBytes, hL, Nat.not_lt.mpr h10, hrc, hn,
        Nat.pos_iff_ne_zero.mp hpos, hsl bs n hpos hlen]

/-- C4 witness: the 13-byte version answer with string length 4 and
string bytes "1.2" followed by a NUL terminator decodes to result code 0
and the version string "1.2" (bytes 49 46 50). -/
theorem string_answer_decode_layout_witness :
    PineVersionAnswer.fromBytes [13, 0, 0, 0, 0, 4, 0, 0, 0, 49, 46, 50, 0] =
      some (.ok ⟨0, [49, 46, 50]⟩) := by
  have h := string_answer_decode_layout.1 [13, 0, 0, 0, 0, 4, 0, 0, 0, 49, 46, 50, 0]
    13 4 0 rfl (by decide) rfl rfl (by decide)
  simpa using h

/-- C5: target resolution of NewPineConnection: an empty target name
fails with the invalid-target error; a zero slot override substitutes the
target's registered default slot (28011 for pcsx2, 28012 for rpcs3); an
unrecognized target with a zero slot fails with the unknown-target error.
In the source the unknown-target message is built from
`maps.Keys(defaultSlotForTargetMap)`, the Go 1.23 iterator value, so the
formatted "Supported values" part is the iterator function value, not the
enumerated names. -/
theorem target_resolution_behavior :
    (∀ goos xdg tmp slot, NewPineConnection goos xdg tmp "" slot = .error .emptyTarget) ∧
    NewPineConnection "linux" "" "" "pcsx2" 0 = .ok ⟨"unix", "/tmp/pcsx2.sock.28011"⟩ ∧
    NewPineConnection "windows" "" "" "rpcs3" 0 = .ok ⟨"tcp", ":28012"⟩ ∧
    (∀ goos xdg tmp, NewPineConnection goos xdg tmp "dolphin" 0 = .error .unknownTarget) ∧
    defaultSlotForTargetMap.lookup "pcsx2" = some 28011 ∧
    defaultSlotForTargetMap.lookup "rpcs3" = some 28012 := by
  refine ⟨?_, rfl, rfl, ?_, rfl, rfl⟩
  · intro goos xdg tmp slot
    rfl
  · intro goos xdg tmp
    rfl

/-- C10: when the slot override is nonzero, NewPineConnection performs no
target-name validation: for every non-empty target and nonzero slot it
succeeds on linux, darwin and windows; and the unknown-target error can
only arise with a zero slot override. -/
theorem nonzero_slot_skips_target_validation :
    (∀ goos xdg tmp target slot, target ≠ "" → slot ≠ 0 →
      goos = "linux" ∨ goos = "darwin" ∨ goos = "windows" →
      ∃ c, NewPineConnection goos xdg tmp target slot = .ok c) ∧
    (∀ goos xdg tmp target slot,
      NewPineConnection goos xdg tmp target slot = .error .unknownTarget →
      slot = 0) := by
  constructor
  · intro goos xdg tmp target slot ht hs hos
    rcases hos with rfl | rfl | rfl
    · exact ⟨⟨"unix", findSocketPath "linux" xdg tmp target slot⟩,
        by simp [NewPineConnection, ht, hs]⟩
    · exact ⟨⟨"unix", findSocketPath "darwin" xdg tmp target slot⟩,
        by simp [NewPineConnection, ht, hs]⟩
    · exact ⟨⟨"tcp", ":" ++ Nat.repr slot⟩,
        by simp [NewPineConnection, ht, hs]⟩
  · intro goos xdg tmp target slot h
    by_contra hs
    simp only [NewPineConnection] at h
    split at h
    · simp at h
    · split at h
      · simp_all
      · split at h <;> simp_all

/-- C10 witness: an unrecognized target with a nonzero slot resolves
successfully on linux. -/
theorem nonzero_slot_skips_target_validation_witness :
    (NewPineConnection "linux" "" "" "dolphin" 123).isOk = true := by
  obtain ⟨c, hc⟩ := nonzero_slot_skips_target_validation.1 "linux" "" "" "dolphin" 123
    (by decide) (by decide) (Or.inl rfl)
  rw [hc]
  rfl

/-! Helper lemmas for the socket path truncation: the decimal digits
written by `fmt.Sprint(slot)` never contain a '.', so the last '.' of a
primary socket path is the one before the slot suffix. -/

theorem digitChar_ne_dot (n : Nat) (hn : n < 10) : Nat.digitChar n ≠ '.' := by
  interval_cases n <;> decide

theorem toDigitsCore_ne_dot (fuel : Nat) :
    ∀ (n : Nat) (ds : List Char), (∀ c ∈ ds, c ≠ '.') →
      ∀ c ∈ Nat.toDigitsCore 10 fuel n ds, c ≠ '.' := by
  induction fuel with
  | zero =>
    intro n ds hds c hc
    exact hds c hc
  | succ fuel ih =>
    intro n ds hds c hc
    simp only [Nat.toDigitsCore] at hc
    by_cases h0 : n / 10 = 0
    · rw [if_pos h0] at hc
      rcases List.mem_cons.mp hc with rfl | hc2
      · exact digitChar_ne_dot (n % 10) (Nat.mod_lt n (by omega))
      · exact hds c hc2
    · rw [if_neg h0] at hc
      refine ih (n / 10) ((n % 10).digitChar :: ds) ?_ c hc
      intro c' hc'
      rcases List.mem_cons.mp hc' with rfl | hc2
      · exact digitChar_ne_dot (n % 10) (Nat.mod_lt n (by omega))
      · exact hds c' hc2

theorem repr_ne_dot (n : Nat) : ∀ c ∈ (Nat.repr n).data, c ≠ '.' := by
  have h := toDigitsCore_ne_dot (n + 1) n [] (by simp)
  simpa [Nat.repr, Nat.toDigits, List.asString] using h

theorem stripAfterLastDot_concat (pre suf : List Char)
    (hsuf : ∀ c ∈ suf, c ≠ '.') :
    stripAfterLastDot ⟨pre ++ '.' :: suf⟩ = ⟨pre⟩ := by
  have hnil : suf.reverse.dropWhile (fun c => c ≠ '.') = [] := by
    rw [List.dropWhile_eq_nil_iff]
    intro x hx
    simpa using hsuf x (List.mem_reverse.mp hx)
  unfold stripAfterLastDot
  congr 1
  show (((pre ++ '.' :: suf).reverse.dropWhile (fun c => c ≠ '.')).drop 1).reverse = pre
  have h1 : (pre ++ '.' :: suf).reverse = suf.reverse ++ '.' :: pre.reverse := by
    simp
  rw [h1, List.dropWhile_append, hnil]
  simp [List.dropWhile_cons]

theorem stripAfterLastDot_socket_path (dir target : String) (slot : Nat) :
    stripAfterLastDot (dir ++ "/" ++ (target ++ ".sock." ++ Nat.repr slot)) =
      dir ++ "/" ++ (target ++ ".sock") := by
  have hdot : (".sock." : String).data = (".sock" : String).data ++ ['.'] := rfl
  have hdata : (dir ++ "/" ++ (target ++ ".sock." ++ Nat.repr slot)).data =
      (dir ++ "/" ++ (target ++ ".sock")).data ++ '.' :: (Nat.repr slot).data := by
    simp [String.data_append, hdot, List.append_assoc]
  have key := stripAfterLastDot_concat ((dir ++ "/" ++ (target ++ ".sock")).data)
    ((Nat.repr slot).data) (repr_ne_dot slot)
  have e1 : (dir ++ "/" ++ (target ++ ".sock." ++ Nat.repr slot)) =
      (⟨(dir ++ "/" ++ (target ++ ".sock")).data ++ '.' :: (Nat.repr slot).data⟩ : String) := by
    apply String.ext
    exact hdata
  rw [e1, key]

/-- C6: the primary socket path is the runtime-directory environment
variable (XDG_RUNTIME_DIR on linux, TMPDIR on darwin) when set and
non-empty, else "/tmp", joined with the file name target.sock.slot; the
secondary candidate is the primary path truncated at its last '.' (the
slot-less name); connect tries the primary address, retries exactly once
against the secondary for unix transports, and otherwise fails. -/
theorem socket_path_resolution_and_fallback :
    (∀ xdg tmp target slot, xdg ≠ "" →
      findSocketPath "linux" xdg tmp target slot =
        xdg ++ "/" ++ (target ++ ".sock." ++ Nat.repr slot)) ∧
    (∀ tmp target slot,
      findSocketPath "linux" "" tmp target slot =
        "/tmp" ++ "/" ++ (target ++ ".sock." ++ Nat.repr slot)) ∧
    (∀ xdg tmp target slot, tmp ≠ "" →
      findSocketPath "darwin" xdg tmp target slot =
        tmp ++ "/" ++ (target ++ ".sock." ++ Nat.repr slot)) ∧
    (∀ xdg target slot,
      findSocketPath "darwin" xdg "" target slot =
        "/tmp" ++ "/" ++ (target ++ ".sock." ++ Nat.repr slot)) ∧
    (∀ dir target slot,
      stripAfterLastDot (dir ++ "/" ++ (target ++ ".sock." ++ Nat.repr slot)) =
        dir ++ "/" ++ (target ++ ".sock")) ∧
    (∀ dial c, dial c.network c.address = true →
      PineConnection.connect dial c = .ok c.address) ∧
    (∀ dial c, dial c.network c.address = false → c.network = "unix" →
      dial c.network (stripAfterLastDot c.address) = true →
      PineConnection.connect dial c = .ok (stripAfterLastDot c.address)) ∧
    (∀ dial c, dial c.network c.address = false →
      dial c.network (stripAfterLastDot c.address) = false →
      PineConnection.connect dial c =
        .error ("could not connect to PINE at \"" ++ c.address ++ "\"")) := by
  refine ⟨?_, ?_, ?_, ?_, stripAfterLastDot_socket_path, ?_, ?_, ?_⟩
  · intro xdg tmp target slot hx
    simp [findSocketPath, hx]
  · intro tmp target slot
    rfl
  · intro xdg tmp target slot htmp
    simp [findSocketPath, htmp]
  · intro xdg target slot
    rfl
  · intro dial c h
    simp [PineConnection.connect, h]
  · intro dial c h hn hd
    rw [hn] at h hd
    simp [PineConnection.connect, hn, h, hd]
  · intro dial c h hd
    simp [PineConnection.connect, h, hd]

/-- C6 witness: with XDG_RUNTIME_DIR set on linux the primary path lives
there, and a unix connection whose primary dial fails falls back to the
slot-less secondary candidate. -/
theorem socket_path_resolution_and_fallback_witness :
    findSocketPath "linux" "/run/user/1000" "" "pcsx2" 28011 =
      "/run/user/1000/pcsx2.sock.28011" ∧
    PineConnection.connect (fun _ a => a == "/tmp/pcsx2.sock")
      ⟨"unix", "/tmp/pcsx2.sock.28011"⟩ = .ok "/tmp/pcsx2.sock" := by
  constructor
  · have h := socket_path_resolution_and_fallback.1 "/run/user/1000" "" "pcsx2" 28011
      (by decide)
    exact h.trans (by rfl)
  · have h := socket_path_resolution_and_fallback.2.2.2.2.2.2.1
      (fun _ a => a == "/tmp/pcsx2.sock") ⟨"unix", "/tmp/pcsx2.sock.28011"⟩
      (by decide) rfl (by decide)
    rw [show stripAfterLastDot "/tmp/pcsx2.sock.28011" = "/tmp/pcsx2.sock" from by decide] at h
    exact h

/-! Helper lemmas for the probe loop. -/

theorem probePass_eq_none (dial : String → String → Bool)
    (goos xdg tmp : String) (l : List (String × Nat))
    (h : ∀ t s, (t, s) ∈ l → probeTarget dial goos xdg tmp t s = false) :
    probePass dial goos xdg tmp l = none := by
  induction l with
  | nil => rfl
  | cons p rest ih =>
    obtain ⟨t, s⟩ := p
    rw [probePass, h t s (by simp)]
    simp only [Bool.false_eq_true, if_false]
    exact ih (fun t' s' h' => h t' s' (List.mem_cons_of_mem _ h'))

theorem roundEvents_all_fail (dial : String → String → Bool)
    (goos xdg tmp : String) (l : List (String × Nat))
    (h : ∀ t s, (t, s) ∈ l → probeTarget dial goos xdg tmp t s = false) :
    roundEvents dial goos xdg tmp l =
      l.map (fun p => LoopEvent.probe p.1) ++ [LoopEvent.sleep 5] := by
  induction l with
  | nil => rfl
  | cons p rest ih =>
    obtain ⟨t, s⟩ := p
    rw [roundEvents, h t s (by simp)]
    simp only [Bool.false_eq_true, if_false, List.map_cons, List.cons_append]
    rw [ih (fun t' s' h' => h t' s' (List.mem_cons_of_mem _ h'))]

/-- C8 (amended): the probe loop of main iterates the known targets in
the (unspecified) iteration order of the Go map for that pass, probing
each with the trivial open-and-close round trip; the first target whose
probe succeeds becomes the connection; when every probe of a pass fails
the pass ends with the 5-second sleep, the process stays disconnected
through every such pass, and a later pass whose probe succeeds
connects. -/
theorem session_probe_loop_behavior :
    (∀ dial goos xdg tmp orders,
      (∀ (n : Nat) t s, (t, s) ∈ orders n →
        probeTarget dial goos xdg tmp t s = false) →
      (∀ n, sessionStateAfterRounds dial goos xdg tmp orders n = .disconnected) ∧
      (∀ n, roundEvents dial goos xdg tmp (orders n) =
        (orders n).map (fun p => LoopEvent.probe p.1) ++ [LoopEvent.sleep 5])) ∧
    (∀ dial goos xdg tmp t s rest, probeTarget dial goos xdg tmp t s = true →
      probePass dial goos xdg tmp ((t, s) :: rest) = some t) ∧
    (∀ dial goos xdg tmp t s rest, probeTarget dial goos xdg tmp t s = false →
      probePass dial goos xdg tmp ((t, s) :: rest) =
        probePass dial goos xdg tmp rest) ∧
    (∀ dial goos xdg tmp orders n t,
      sessionStateAfterRounds dial goos xdg tmp orders n = .disconnected →
      probePass dial goos xdg tmp (orders n) = some t →
      sessionStateAfterRounds dial goos xdg tmp orders (n + 1) = .connected t) := by
  refine ⟨?_, ?_, ?_, ?_⟩
  · intro dial goos xdg tmp orders hfail
    constructor
    · intro n
      induction n with
      | zero => rfl
      | succ n ih =>
        rw [sessionStateAfterRounds, ih,
          probePass_eq_none dial goos xdg tmp (orders n) (hfail n)]
    · intro n
      exact roundEvents_all_fail dial goos xdg tmp (orders n) (hfail n)
  · intro dial goos xdg tmp t s rest h
    rw [probePass, h]
    simp
  · intro dial goos xdg tmp t s rest h
    rw [probePass, h]
    simp
  · intro dial goos xdg tmp orders n t hst hp
    rw [sessionStateAfterRounds, hst, hp]

/-- C8 counterexample: with every target reachable, the two possible
iteration orders of the entries of the Go map defaultSlotForTargetMap
make the probe pass commit to different targets (pcsx2 for one order,
rpcs3 for the other), so the loop does not iterate in a fixed order with
a determined first success. -/
theorem probe_pass_order_dependent_cex :
    probePass (fun _ _ => true) "linux" "" ""
      [("pcsx2", 28011), ("rpcs3", 28012)] = some "pcsx2" ∧
    probePass (fun _ _ => true) "linux" "" ""
      [("rpcs3", 28012), ("pcsx2", 28011)] = some "rpcs3" ∧
    [("pcsx2", 28011), ("rpcs3", 28012)] = defaultSlotForTargetMap ∧
    List.Perm [("rpcs3", 28012), ("pcsx2", 28011)] defaultSlotForTargetMap := by
  refine ⟨rfl, rfl, rfl, by decide⟩

/-- C8 witness: with no target reachable the process is still
disconnected after three passes, and one pass probes both targets and
ends with the 5-second sleep. -/
theorem session_probe_loop_behavior_witness :
    sessionStateAfterRounds (fun _ _ => false) "linux" "" ""
      (fun _ => defaultSlotForTargetMap) 3 = .disconnected ∧
    roundEvents (fun _ _ => false) "linux" "" "" defaultSlotForTargetMap =
      [.probe "pcsx2", .probe "rpcs3", .sleep 5] := by
  have hfail : ∀ (n : Nat) t s, (t, s) ∈ defaultSlotForTargetMap →
      probeTarget (fun _ _ => false) "linux" "" "" t s = false := by
    intro n t s h
    simp only [defaultSlotForTargetMap, List.mem_cons, List.mem_singleton,
      Prod.mk.injEq, List.not_mem_nil, or_false] at h
    rcases h with ⟨rfl, rfl⟩ | ⟨rfl, rfl⟩ <;> rfl
  have h := session_probe_loop_behavior.1 (fun _ _ => false) "linux" "" ""
    (fun _ => defaultSlotForTargetMap) hfail
  exact ⟨h.1 3, (h.2 0).trans (by rfl)⟩
